import Mathlib

/-!
Shallow embedding of the Joba_JbdBms protocol transaction engine
(`src/src/jbdbms.cpp`).  Machine integers are modelled as `Nat` with
explicit wraparound (`% 2^16`, `% 2^32`); the serial transport is a list
of incoming bytes plus a flag saying whether the outgoing writes were
accepted; buffers are lists of byte values.  The library's header file
(struct layouts, opcode constants, the 16-bit `swap` helper) is not part
of `src/`; those pieces are modelled from the spec and marked as such.
-/

namespace JbdBms

/-- Modelled from the spec: the 16-bit byte-swap helper `swap` lives in the
library's header, which is absent from `src/`.  Spec section 4.1: byte-swap the
16-bit result (low byte and high byte exchanged). -/
def swap16 (v : Nat) : Nat :=
  v % 65536 % 256 * 256 + v % 65536 / 256

/-- Unsigned 16-bit subtraction with wraparound, the C `uint16_t` `crc -= x`. -/
def sub16 (a b : Nat) : Nat := (a % 65536 + 65536 - b % 65536) % 65536

/-- Unsigned 32-bit subtraction with wraparound, the C `uint32_t` subtraction
used in the pacing computation (jbdbms.cpp:46). -/
def sub32 (a b : Nat) : Nat :=
  (a % 4294967296 + 4294967296 - b % 4294967296) % 4294967296

/-- Modelled from the spec (section 6 wire format): the request header struct
`request_header_t` has the byte fields start, opcode, register, length, in
this order (its definition lives in the header file absent from `src/`). -/
structure RequestHeader where
  start : Nat
  command : Nat
  register : Nat
  length : Nat

/-- Modelled from the spec (section 6 wire format): the response header struct
`response_header_t` has the byte fields start, status/returncode, length. -/
structure ResponseHeader where
  start : Nat
  returncode : Nat
  length : Nat

/-- Modelled from the spec (section 9, open question): the opcode constants
live in the header file absent from `src/`.  The concrete values below are
representative byte values; no claim depends on them. -/
def READ : Nat := 0xa5

/-- Modelled from the spec: the WRITE opcode byte (header file absent). -/
def WRITE : Nat := 0x5a

/-- Modelled from the spec: the STATUS register byte (header file absent). -/
def STATUS : Nat := 0x03

/-- Modelled from the spec: the MOSFET register byte (header file absent). -/
def MOSFET : Nat := 0xe1

/-- Modelled from the spec (section 4.4): the two defined MOSFET control bit
positions (charge and discharge switches), i.e. the mask of bit 0 and bit 1. -/
def MOSFET_BOTH : Nat := 3

/-- `JbdBms::genCrc` (jbdbms.cpp:149-161): 16-bit additive checksum.  Start
from 0; when `len < 31` and (`len == 0` or the data pointer is non-null)
subtract the seed byte, the length and each of the `len` payload bytes in a
16-bit accumulator with wraparound; finally byte-swap.  A null data pointer is
`none`. -/
def genCrc (byte len : Nat) (data : Option (List Nat)) : Nat :=
  let crc : Nat :=
    if len < 31 ∧ (len = 0 ∨ data.isSome) then
      ((data.getD []).take len).foldl sub16 (sub16 (sub16 0 byte) len)
    else 0
  swap16 crc

/-- `JbdBms::genRequestCrc` (jbdbms.cpp:139-141). -/
def genRequestCrc (header : RequestHeader) (data : Option (List Nat)) : Nat :=
  genCrc header.command header.length data

/-- `JbdBms::genResponseCrc` (jbdbms.cpp:145-147). -/
def genResponseCrc (header : ResponseHeader) (data : Option (List Nat)) : Nat :=
  genCrc header.returncode header.length data

/-- `JbdBms::isValid` (jbdbms.cpp:165-167): the recomputed response checksum
must equal the received one. -/
def isValid (header : ResponseHeader) (data : Option (List Nat)) (crc : Nat) : Bool :=
  genResponseCrc header data == crc

/-- Result of `JbdBms::prepareCmd`: the header with its start byte set, the
checksum written through the `crc` out-parameter, and the boolean return. -/
structure PrepareResult where
  header : RequestHeader
  crc : Nat
  ok : Bool

/-- `JbdBms::prepareCmd` (jbdbms.cpp:171-175): set the start byte to 0xdd,
compute the request checksum, succeed iff it is nonzero. -/
def prepareCmd (header : RequestHeader) (data : Option (List Nat)) : PrepareResult :=
  let crc := genRequestCrc header data
  ⟨{ header with start := 0xdd }, crc, crc ≠ 0⟩

/-- The serial transport: whether the four outgoing writes are all accepted in
full, and the stream of incoming bytes available to `readBytes`. -/
structure Transport where
  writesOk : Bool
  rx : List Nat

/-- Observable outcome of one `JbdBms::execute` call: the boolean return, the
bytes written to the transport (empty when the frame was not sent; a partially
accepted write is not modelled byte by byte, no claim depends on it), whether
the direction pin was driven, the milliseconds spent in the pacing `delay`
call, the final value of the shared pacing timestamp `*_prev`, the number of
incoming bytes consumed, and the caller's result buffer after the call. -/
structure ExecResult where
  ok : Bool
  written : List Nat
  dirToggled : Bool
  sleptMs : Nat
  newPrev : Nat
  readCount : Nat
  resultBuf : List Nat

/-- The tail of the receive sequence (jbdbms.cpp:71-74): read the 2-byte
checksum (assembled little-endian on the host, as `readBytes` into a
`uint16_t` does), read the 1-byte stop marker, then check `isValid` and
`returncode == 0`.  Returns the boolean outcome and the number of incoming
bytes consumed. -/
def finishRead (rh : ResponseHeader) (data : Option (List Nat)) (rest : List Nat) :
    Bool × Nat :=
  let cb := rest.take 2
  if cb.length = 2 then
    let sb := (rest.drop 2).take 1
    if sb.length = 1 then
      let crcR := cb.getD 0 0 + 256 * cb.getD 1 0
      (isValid rh data crcR && rh.returncode == 0, 3)
    else (false, 2 + sb.length)
  else (false, cb.length)

/-- `JbdBms::execute` (jbdbms.cpp:38-90).  `dirPin` says whether a direction
pin is configured; `delayMs` is `_delay`; `prev` is `*_prev` on entry; `now1`
and `now2` are the two `millis()` readings (lines 46 and 87); `command` is the
request payload pointer (`none` = null); `result` is the caller's result
buffer (`none` = null).  On `prepareCmd` failure the function returns at line
43: nothing is written or read, the pin is untouched and `*_prev` keeps its
old value.  Otherwise it paces, toggles the pin, writes the frame, and on
write success runs the short-circuited read/validate chain of lines 68-74,
filling the result buffer with whatever payload bytes arrived. -/
def execute (dirPin : Bool) (delayMs prev now1 now2 : Nat)
    (header : RequestHeader) (command : Option (List Nat))
    (result : Option (List Nat)) (tr : Transport) : ExecResult :=
  let pc := prepareCmd header command
  if pc.ok then
    let remaining := sub32 delayMs (sub32 now1 prev)
    let slept := if remaining ≤ delayMs then remaining else 0
    let h := pc.header
    let frame := [h.start, h.command, h.register, h.length]
      ++ (command.getD []).take h.length
      ++ [pc.crc % 256, pc.crc / 256, 0x77]
    if tr.writesOk then
      let hb := tr.rx.take 3
      let rest := tr.rx.drop 3
      if hb.length = 3 then
        let rh : ResponseHeader := ⟨hb.getD 0 0, hb.getD 1 0, hb.getD 2 0⟩
        if rh.start = 0xdd ∧ rh.length ≤ 64 then
          if rh.length = 0 then
            let fin := finishRead rh result rest
            ⟨fin.1, frame, dirPin, slept, now2, 3 + fin.2, result.getD []⟩
          else
            match result with
            | none => ⟨false, frame, dirPin, slept, now2, 3, []⟩
            | some buf =>
              let pb := rest.take rh.length
              let buf2 := pb ++ buf.drop pb.length
              if pb.length = rh.length then
                let fin := finishRead rh (some buf2) (rest.drop rh.length)
                ⟨fin.1, frame, dirPin, slept, now2, 3 + rh.length + fin.2, buf2⟩
              else
                ⟨false, frame, dirPin, slept, now2, 3 + pb.length, buf2⟩
        else ⟨false, frame, dirPin, slept, now2, 3, result.getD []⟩
      else ⟨false, frame, dirPin, slept, now2, hb.length, result.getD []⟩
    else ⟨false, [], dirPin, slept, now2, 0, result.getD []⟩
  else ⟨false, [], false, 0, prev, 0, result.getD []⟩

/-- Swap the two buffer bytes at offsets `i` and `i+1`: the in-place 16-bit
`swap(&field)` of the data-model decoder, seen at the byte-buffer level. -/
def swapBytesAt (l : List Nat) (i : Nat) : List Nat :=
  (l.set i (l.getD (i + 1) 0)).set (i + 1) (l.getD i 0)

/-- The nine `swap` calls of `JbdBms::getStatus` (jbdbms.cpp:98-106) on the
result buffer.  Modelled from the spec (section 3 StatusRecord): the nine u16
fields voltage, current, remainingCapacity, nominalCapacity, cycles,
productionDate, balanceLow, balanceHigh, fault sit consecutively at byte
offsets 0,2,...,16 of the record. -/
def swapStatusFields (l : List Nat) : List Nat :=
  [0, 2, 4, 6, 8, 10, 12, 14, 16].foldl swapBytesAt l

/-- `JbdBms::getStatus` (jbdbms.cpp:95-108): run `execute` with request
{0, READ, STATUS, 0}, null command payload and the record as result buffer,
then byte-swap the multi-byte fields of the record — unconditionally, whatever
`execute` returned — and return the flag together with the record. -/
def getStatus (dirPin : Bool) (delayMs prev now1 now2 : Nat)
    (tr : Transport) (buf : List Nat) : Bool × List Nat :=
  let r := execute dirPin delayMs prev now1 now2 ⟨0, READ, STATUS, 0⟩ none (some buf) tr
  (r.ok, swapStatusFields r.resultBuf)

/-- The inversion and masking of `JbdBms::setMosfetStatus` (jbdbms.cpp:129):
`~status & MOSFET_BOTH`, i.e. complement of the two control bits, written on
the masked bits as xor with the mask. -/
def mosfetInv (s : Nat) : Nat := (s &&& MOSFET_BOTH) ^^^ MOSFET_BOTH

/-- `JbdBms::setMosfetStatus` (jbdbms.cpp:127-132): execute a WRITE request to
the MOSFET register with declared length 2 and payload {0, ~status &
MOSFET_BOTH}; the result pointer is null. -/
def setMosfetStatus (dirPin : Bool) (delayMs prev now1 now2 : Nat)
    (tr : Transport) (s : Nat) : ExecResult :=
  execute dirPin delayMs prev now1 now2 ⟨0, WRITE, MOSFET, 2⟩
    (some [0, mosfetInv s]) none tr

/-- The character-producing loop of `JbdBms::balance` (jbdbms.cpp:186-189):
emit one `'1'`/`'0'` per remaining cell from the low bit, shifting right. -/
def balanceChars : Nat → Nat → List Char
  | 0, _ => []
  | n + 1, bits => (if bits &&& 1 = 1 then '1' else '0') :: balanceChars n (bits >>> 1)

/-- `JbdBms::balance` (jbdbms.cpp:180-193): combine the two balance banks into
a 32-bit bitmap, clamp the cell count to the 33-byte buffer (32 characters
plus NUL), and render bit 0 first.  The model is the string content, without
the terminating NUL byte. -/
def balance (cells balanceLow balanceHigh : Nat) : List Char :=
  balanceChars (if cells < 33 then cells else 32) ((balanceHigh <<< 16) ||| balanceLow)

/-! ## Helper lemmas -/

theorem foldl_sub16_eq (l : List Nat) (a : Nat) (ha : a < 65536) :
    l.foldl sub16 a =
      (a + 65536 * l.length - (l.map (fun x => x % 65536)).sum) % 65536 := by
  induction l generalizing a with
  | nil => simp; omega
  | cons x xs ih =>
    have hx : sub16 a x < 65536 := Nat.mod_lt _ (by norm_num)
    rw [List.foldl_cons, ih _ hx]
    have hsum : ((xs.map fun x => x % 65536)).sum ≤ 65536 * xs.length := by
      clear ih hx
      induction xs with
      | nil => simp
      | cons y ys ihy =>
        simp only [List.map_cons, List.sum_cons, List.length_cons]
        omega
    simp only [sub16, List.map_cons, List.sum_cons, List.length_cons]
    omega

theorem sum_lt_256_mul (l : List Nat) (h : ∀ x ∈ l, x < 256) :
    l.sum ≤ 256 * l.length := by
  induction l with
  | nil => simp
  | cons x xs ih =>
    simp only [List.sum_cons, List.length_cons]
    have h1 := h x (List.mem_cons_self x xs)
    have h2 := ih fun y hy => h y (List.mem_cons_of_mem _ hy)
    omega

theorem genCrc_congr_take (b L : Nat) (d1 d2 : List Nat)
    (h : d1.take L = d2.take L) : genCrc b L (some d1) = genCrc b L (some d2) := by
  unfold genCrc
  simp [h]

theorem balanceChars_length (n bits : Nat) : (balanceChars n bits).length = n := by
  induction n generalizing bits with
  | zero => rfl
  | succ m ih => simp [balanceChars, ih]

theorem balanceChars_getD (n bits i : Nat) (h : i < n) :
    (balanceChars n bits).getD i 'x' =
      (if bits >>> i &&& 1 = 1 then '1' else '0') := by
  induction n generalizing bits i with
  | zero => omega
  | succ m ih =>
    cases i with
    | zero => simp [balanceChars, Nat.shiftRight_zero, List.getD]
    | succ j =>
      have hj : j < m := by omega
      simp only [balanceChars, List.getD_cons_succ, ih (bits >>> 1) j hj]
      rw [show bits >>> 1 >>> j = bits >>> (j + 1) by
        rw [Nat.add_comm, Nat.shiftRight_add]]

theorem balanceChars_mem (n bits : Nat) (c : Char) (h : c ∈ balanceChars n bits) :
    c = '0' ∨ c = '1' := by
  induction n generalizing bits with
  | zero => simp [balanceChars] at h
  | succ m ih =>
    simp only [balanceChars, List.mem_cons] at h
    rcases h with h | h
    · split at h
      · right; exact h
      · left; exact h
    · exact ih _ h

/-! ## Claims -/

/-- C1: for every seed byte `b < 256`, every length `n < 31` and every payload
of exactly `n` bytes, `genCrc` returns the byte-swapped value of
`0 - b - n - (sum of the payload bytes)` reduced modulo `2^16` (the value is a
pure function of its inputs, hence deterministic). -/
theorem genCrc_spec_formula (b : Nat) (p : List Nat) (hb : b < 256)
    (hn : p.length < 31) (hp : ∀ x ∈ p, x < 256) :
    genCrc b p.length (some p) =
      swap16 ((65536 - (b + p.length + p.sum) % 65536) % 65536) := by
  have hsum := sum_lt_256_mul p hp
  unfold genCrc
  rw [if_pos ⟨hn, Or.inr rfl⟩]
  simp only [Option.getD_some, List.take_length]
  have hstart : sub16 (sub16 0 b) p.length < 65536 := by unfold sub16; omega
  rw [foldl_sub16_eq _ _ hstart]
  have hmap : (p.map fun x => x % 65536) = p := by
    have h1 : (p.map fun x => x % 65536) = p.map id :=
      List.map_congr_left fun x hx =>
        Nat.mod_eq_of_lt (lt_trans (hp x hx) (by norm_num))
    rw [h1, List.map_id]
  rw [hmap]
  unfold swap16 sub16
  omega

/-- C1 witness: the formula evaluated at seed 3 and payload [16, 32]. -/
theorem genCrc_spec_formula_witness :
    genCrc 3 2 (some [16, 32]) =
      swap16 ((65536 - (3 + 2 + 48) % 65536) % 65536) :=
  genCrc_spec_formula 3 [16, 32] (by decide) (by decide) (by decide)

/-- C6: for a request with length at least 31, or positive length with a null
payload pointer, `genCrc` returns the sentinel 0, `prepareCmd` reports
failure, and `execute` returns false without touching the transport: nothing
is written, nothing is read, and the direction pin is not toggled. -/
theorem encoding_failure_no_transport (dirPin : Bool)
    (delayMs prev now1 now2 : Nat) (header : RequestHeader)
    (command result : Option (List Nat)) (tr : Transport)
    (h : 31 ≤ header.length ∨ (0 < header.length ∧ command = none)) :
    genCrc header.command header.length command = 0 ∧
    (prepareCmd header command).ok = false ∧
    (execute dirPin delayMs prev now1 now2 header command result tr).ok = false ∧
    (execute dirPin delayMs prev now1 now2 header command result tr).written = [] ∧
    (execute dirPin delayMs prev now1 now2 header command result tr).readCount = 0 ∧
    (execute dirPin delayMs prev now1 now2 header command result tr).dirToggled
      = false := by
  have hcrc : genCrc header.command header.length command = 0 := by
    unfold genCrc
    rw [if_neg]
    · decide
    · rcases h with h | ⟨h1, h2⟩
      · rintro ⟨hlt, -⟩; omega
      · subst h2
        rintro ⟨-, h0 | hs⟩
        · omega
        · simp at hs
  have hok : (prepareCmd header command).ok = false := by
    simp [prepareCmd, genRequestCrc, hcrc]
  have hexec : execute dirPin delayMs prev now1 now2 header command result tr =
      ⟨false, [], false, 0, prev, 0, result.getD []⟩ := by
    simp only [execute, hok, Bool.false_eq_true, if_false]
  rw [hexec]
  exact ⟨hcrc, hok, rfl, rfl, rfl, rfl⟩

/-- C6 witness: a request of declared length 1 with a null payload pointer. -/
theorem encoding_failure_witness :
    genCrc 165 1 none = 0 ∧
    (prepareCmd ⟨0, 165, 3, 1⟩ none).ok = false ∧
    (execute false 10 5 7 100 ⟨0, 165, 3, 1⟩ none none ⟨true, []⟩).ok = false ∧
    (execute false 10 5 7 100 ⟨0, 165, 3, 1⟩ none none ⟨true, []⟩).written = [] ∧
    (execute false 10 5 7 100 ⟨0, 165, 3, 1⟩ none none ⟨true, []⟩).readCount = 0 ∧
    (execute false 10 5 7 100 ⟨0, 165, 3, 1⟩ none none ⟨true, []⟩).dirToggled
      = false :=
  encoding_failure_no_transport false 10 5 7 100 ⟨0, 165, 3, 1⟩ none none
    ⟨true, []⟩ (Or.inr ⟨by decide, rfl⟩)

/-- C7: round-trip self-verification: encoding a valid request (length below
31, payload of exactly that length) with `prepareCmd` and then checking the
stored checksum with `isValid` over the same seed byte, length and payload
yields true. -/
theorem prepare_isValid_roundtrip (header : RequestHeader) (p : List Nat)
    (hlen : header.length = p.length) (hn : p.length < 31) :
    isValid ⟨0xdd, header.command, header.length⟩ (some p)
      (prepareCmd header (some p)).crc = true := by
  simp [isValid, genResponseCrc, prepareCmd, genRequestCrc]

/-- C7 witness: the round trip at a concrete request. -/
theorem prepare_isValid_roundtrip_witness :
    isValid ⟨0xdd, 0x5a, 2⟩ (some [0, 3])
      (prepareCmd ⟨0, 0x5a, 0xe1, 2⟩ (some [0, 3])).crc = true :=
  prepare_isValid_roundtrip ⟨0, 0x5a, 0xe1, 2⟩ [0, 3] rfl (by decide)

/-- C8: the balance helper on a status record with cells = 4,
balanceLow = 0b0101, balanceHigh = 0 renders "1010", and in general bit `i` of
the combined bitmap `(balanceHigh <<< 16) ||| balanceLow` maps to character
`i`, '1' when the bit is set and '0' otherwise. -/
theorem balance_bit0_first :
    balance 4 5 0 = ['1', '0', '1', '0'] ∧
    ∀ cells low high i, i < min cells 32 →
      (balance cells low high).getD i 'x' =
        (if ((high <<< 16) ||| low) >>> i &&& 1 = 1 then '1' else '0') := by
  refine ⟨by decide, fun cells low high i hi => ?_⟩
  unfold balance
  apply balanceChars_getD
  split <;> omega

/-- C8 witness: the second character of the rendered example is '0'. -/
theorem balance_bit0_first_witness :
    balance 4 5 0 = ['1', '0', '1', '0'] ∧
    (balance 4 5 0).getD 1 'x' =
      (if ((0 <<< 16) ||| 5) >>> 1 &&& 1 = 1 then '1' else '0') :=
  ⟨balance_bit0_first.1, balance_bit0_first.2 4 5 0 1 (by decide)⟩

/-- C10: for every status record the balance helper returns a string of
exactly `min cells 32` characters, each of which is '0' or '1'; a cell count
above 32 is truncated to 32 characters.  (The C buffer additionally carries a
terminating NUL after these characters; the model is the string content.) -/
theorem balance_length_chars (cells low high : Nat) :
    (balance cells low high).length = min cells 32 ∧
    ∀ c ∈ balance cells low high, c = '0' ∨ c = '1' := by
  constructor
  · unfold balance
    rw [balanceChars_length]
    split <;> omega
  · intro c hc
    exact balanceChars_mem _ _ c hc

/-- C10 witness: a 40-cell record renders 32 characters and contains '1'. -/
theorem balance_length_chars_witness :
    (balance 40 5 0).length = min 40 32 ∧ ('1' = '0' ∨ '1' = '1') :=
  ⟨(balance_length_chars 40 5 0).1,
   (balance_length_chars 40 5 0).2 '1' (by decide)⟩

theorem execute_sleptMs_eq (dirPin : Bool) (delayMs prev now1 now2 : Nat)
    (header : RequestHeader) (command result : Option (List Nat)) (tr : Transport)
    (hprep : (prepareCmd header command).ok = true) :
    (execute dirPin delayMs prev now1 now2 header command result tr).sleptMs =
      (if sub32 delayMs (sub32 now1 prev) ≤ delayMs then
        sub32 delayMs (sub32 now1 prev) else 0) := by
  simp only [execute, hprep, if_true]
  repeat' split
  all_goals rfl

theorem execute_newPrev_eq (dirPin : Bool) (delayMs prev now1 now2 : Nat)
    (header : RequestHeader) (command result : Option (List Nat)) (tr : Transport)
    (hprep : (prepareCmd header command).ok = true) :
    (execute dirPin delayMs prev now1 now2 header command result tr).newPrev
      = now2 := by
  simp only [execute, hprep, if_true]
  repeat' split
  all_goals rfl

/-- C3 counterexample: a call whose checksum generation fails (declared length
1 with a null payload) returns false and leaves the shared pacing timestamp at
its old value 5 instead of the current time 100 — the claim that the timestamp
is updated after every call, including this failure, is false on the code
(jbdbms.cpp:42-43 returns before line 87). -/
theorem execute_prev_cex :
    (execute false 10 5 7 100 ⟨0, 165, 3, 1⟩ none none ⟨true, []⟩).ok = false ∧
    (execute false 10 5 7 100 ⟨0, 165, 3, 1⟩ none none ⟨true, []⟩).newPrev = 5 ∧
    (5 : Nat) ≠ 100 := by decide

/-- C3 (amended): after every call to `execute` in which the request encodes
successfully (`prepareCmd` succeeds), the shared pacing timestamp is updated
to the current time regardless of success or failure of the transaction; when
checksum generation fails, `execute` returns false without updating it. -/
theorem execute_updates_prev_when_prepared (dirPin : Bool)
    (delayMs prev now1 now2 : Nat) (header : RequestHeader)
    (command result : Option (List Nat)) (tr : Transport)
    (hprep : (prepareCmd header command).ok = true) :
    (execute dirPin delayMs prev now1 now2 header command result tr).newPrev
      = now2 ∧
    ((prepareCmd header command).ok = false →
      (execute dirPin delayMs prev now1 now2 header command result tr).newPrev
        = prev) :=
  ⟨execute_newPrev_eq dirPin delayMs prev now1 now2 header command result tr hprep,
   fun hf => absurd hprep (by simp [hf])⟩

/-- C3 witness: a failed transaction (write failure) still updates the
timestamp to the current time 100. -/
theorem execute_updates_prev_witness :
    (execute false 10 5 7 100 ⟨0, 165, 3, 0⟩ none none ⟨false, []⟩).newPrev
      = 100 ∧
    ((prepareCmd ⟨0, 165, 3, 0⟩ none).ok = false →
      (execute false 10 5 7 100 ⟨0, 165, 3, 0⟩ none none ⟨false, []⟩).newPrev
        = 5) :=
  execute_updates_prev_when_prepared false 10 5 7 100 ⟨0, 165, 3, 0⟩ none none
    ⟨false, []⟩ (by decide)

/-- C5: on two consecutive transactions over the same pacing state, with the
clock values free of 32-bit wraparound, if the elapsed time `now1 - prev` is
below the configured minimum delay then the second transaction sleeps for
exactly the remaining `delayMs - (now1 - prev)` milliseconds (hence at least
that much) before its transport write, and if the elapsed time is at least the
minimum delay it sleeps 0 milliseconds; both differences are computed by
`sub32`, the unsigned 32-bit wraparound subtraction. -/
theorem execute_pacing (dirPin : Bool) (delayMs prev now1 now2 : Nat)
    (header : RequestHeader) (command result : Option (List Nat)) (tr : Transport)
    (hprep : (prepareCmd header command).ok = true)
    (hn32 : now1 < 4294967296) (hd32 : delayMs < 4294967296)
    (hord : prev ≤ now1) :
    ((now1 - prev < delayMs →
        (execute dirPin delayMs prev now1 now2 header command result tr).sleptMs
          = delayMs - (now1 - prev)) ∧
     (delayMs ≤ now1 - prev →
        (execute dirPin delayMs prev now1 now2 header command result tr).sleptMs
          = 0)) := by
  rw [execute_sleptMs_eq dirPin delayMs prev now1 now2 header command result tr
    hprep]
  unfold sub32
  constructor <;> intro h <;> split <;> omega

/-- C5 witness: minimum delay 200 ms, elapsed 50 ms: the call sleeps 150 ms. -/
theorem execute_pacing_witness :
    (execute false 200 100 150 999 ⟨0, 165, 3, 0⟩ none (some []) ⟨true, []⟩).sleptMs
      = 200 - (150 - 100) :=
  (execute_pacing false 200 100 150 999 ⟨0, 165, 3, 0⟩ none (some []) ⟨true, []⟩
    (by decide) (by norm_num) (by norm_num) (by norm_num)).1 (by norm_num)

theorem genCrc_mosfet_ne_zero (v : Nat) (hv : v ≤ 3) :
    genCrc WRITE 2 (some [0, v]) ≠ 0 := by
  interval_cases v <;> decide

/-- C9: for every switch-state value, `setMosfetStatus` sends a WRITE request
to the MOSFET register with declared length 2 whose payload is exactly the two
bytes {0, inverted state masked to the defined MOSFET bits}; the full frame on
the wire is start byte, WRITE opcode, MOSFET register, length 2, the two
payload bytes, the checksum low and high bytes, and the stop byte. -/
theorem setMosfetStatus_frame (dirPin : Bool) (delayMs prev now1 now2 : Nat)
    (tr : Transport) (s : Nat) (hw : tr.writesOk = true) :
    (setMosfetStatus dirPin delayMs prev now1 now2 tr s).written =
      [0xdd, WRITE, MOSFET, 2, 0, mosfetInv s] ++
        [genCrc WRITE 2 (some [0, mosfetInv s]) % 256,
         genCrc WRITE 2 (some [0, mosfetInv s]) / 256, 0x77] := by
  have hinv : mosfetInv s ≤ 3 := by
    unfold mosfetInv MOSFET_BOTH
    have h1 : s &&& 3 ≤ 3 := Nat.and_le_right
    generalize s &&& 3 = x at h1 ⊢
    interval_cases x <;> decide
  have hprep : (prepareCmd ⟨0, WRITE, MOSFET, 2⟩ (some [0, mosfetInv s])).ok
      = true := by
    simp only [prepareCmd, genRequestCrc, decide_eq_true_eq]
    exact genCrc_mosfet_ne_zero _ hinv
  unfold setMosfetStatus
  simp only [execute, hprep, if_true, hw]
  repeat' split
  all_goals rfl

/-- C9 witness: the concrete frame for switch state 1 (charge on). -/
theorem setMosfetStatus_frame_witness :
    (setMosfetStatus false 10 0 0 0 ⟨true, []⟩ 1).written =
      [0xdd, WRITE, MOSFET, 2, 0, mosfetInv 1] ++
        [genCrc WRITE 2 (some [0, mosfetInv 1]) % 256,
         genCrc WRITE 2 (some [0, mosfetInv 1]) / 256, 0x77] :=
  setMosfetStatus_frame false 10 0 0 0 ⟨true, []⟩ 1 rfl

/-- C4 counterexample: a transport that declares a 5-byte response payload but
delivers no payload bytes (a short read).  `getStatus` returns false, yet the
wire-order-to-host-order conversion of the output record still takes place:
the record's leading voltage field bytes {11, 184} come back swapped to
{184, 11}, so the claim that the data-model decoder is not invoked is false. -/
theorem getStatus_short_read_cex :
    getStatus false 10 0 0 0 ⟨true, [0xdd, 0, 5]⟩
        (11 :: 184 :: List.replicate 16 0) =
      (false, 184 :: 11 :: List.replicate 16 0) ∧
    ((184 : Nat) :: 11 :: List.replicate 16 0
      ≠ 11 :: 184 :: List.replicate 16 0) := by
  decide

/-- C4 (amended): when the transport yields fewer bytes than the declared
response length, the transaction fails — `getStatus` returns false — but the
data-model decoder still runs: the returned record is the byte-swap of the
partially filled buffer, not the untouched buffer. -/
theorem getStatus_short_read_swaps (dirPin : Bool) (delayMs prev now1 now2 : Nat)
    (buf q : List Nat) (s L : Nat) (tr : Transport)
    (hw : tr.writesOk = true)
    (hrx : tr.rx = 0xdd :: s :: L :: q)
    (hL64 : L ≤ 64) (hshort : q.length < L) :
    getStatus dirPin delayMs prev now1 now2 tr buf =
      (false, swapStatusFields (q ++ buf.drop q.length)) := by
  have hprep : (prepareCmd ⟨0, READ, STATUS, 0⟩ none).ok = true := by decide
  unfold getStatus
  simp only [execute, hprep, if_true, hw, hrx, List.take_succ_cons,
    List.take_zero, List.drop_succ_cons, List.drop_zero, List.length_cons,
    List.length_nil, List.getD_cons_zero, List.getD_cons_succ]
  rw [List.take_of_length_le (le_of_lt hshort)]
  rw [if_pos ⟨trivial, hL64⟩, if_neg (by omega : ¬L = 0),
    if_neg (Nat.ne_of_lt hshort)]

/-- C4 witness: the amended statement at a concrete short read. -/
theorem getStatus_short_read_swaps_witness :
    getStatus false 1 0 0 0 ⟨true, [0xdd, 0, 5]⟩ [1, 2] = (false, [2, 1]) :=
  getStatus_short_read_swaps false 1 0 0 0 [1, 2] [] 0 5 ⟨true, [0xdd, 0, 5]⟩
    rfl rfl (by norm_num) (by norm_num)

/-- C2: when the request encodes successfully, the transport writes succeed,
and the transport delivers a complete response — a 3-byte header, exactly the
declared number of payload bytes read into a non-null result buffer, a 2-byte
checksum (assembled little-endian) and a stop byte — `execute` returns true
iff the start marker is 0xDD, the declared length is at most 64, the received
checksum equals `genCrc` recomputed over {status byte, declared length,
payload}, and the status byte is zero; the declared length is arbitrary, in
particular anything from 0 to 64. -/
theorem execute_response_validation (dirPin : Bool) (delayMs prev now1 now2 : Nat)
    (header : RequestHeader) (command : Option (List Nat)) (buf : List Nat)
    (st status L : Nat) (p : List Nat) (c0 c1 stp : Nat) (tr : Transport)
    (hprep : (prepareCmd header command).ok = true)
    (hw : tr.writesOk = true)
    (hlen : p.length = L)
    (hrx : tr.rx = st :: status :: L :: (p ++ [c0, c1, stp])) :
    (execute dirPin delayMs prev now1 now2 header command (some buf) tr).ok = true
      ↔ (st = 0xdd ∧ L ≤ 64 ∧
         genCrc status L (some p) = c0 + 256 * c1 ∧ status = 0) := by
  subst hlen
  simp only [execute, hprep, if_true, hw, hrx, List.take_succ_cons,
    List.take_zero, List.drop_succ_cons, List.drop_zero, List.length_cons,
    List.length_nil, List.getD_cons_zero, List.getD_cons_succ]
  by_cases hst : st = 221
  case neg =>
    rw [if_neg (by tauto)]
    simp [hst]
  case pos =>
    subst hst
    by_cases hL : p.length ≤ 64
    case neg =>
      rw [if_neg (by tauto)]
      simp [hL]
    case pos =>
      rw [if_pos ⟨rfl, hL⟩]
      by_cases hL0 : p.length = 0
      · have hp : p = [] := List.length_eq_zero.mp hL0
        subst hp
        simp only [List.length_nil, List.nil_append]
        rw [if_pos trivial]
        have hval : genCrc status 0 (some buf) = genCrc status 0 (some []) :=
          genCrc_congr_take status 0 buf [] (by simp)
        simp [finishRead, isValid, genResponseCrc, hval, Bool.and_eq_true,
          beq_iff_eq]
      · rw [if_neg hL0]
        rw [List.take_left, if_pos rfl, List.drop_left]
        have hval : genCrc status p.length (some (p ++ List.drop p.length buf))
            = genCrc status p.length (some p) :=
          genCrc_congr_take _ _ _ _ (by rw [List.take_left, List.take_length])
        simp [finishRead, isValid, genResponseCrc, hval, Bool.and_eq_true,
          beq_iff_eq, hL]

/-- C2 witness: a complete, well-formed zero-length response with matching
checksum and status 0 makes `execute` return true. -/
theorem execute_response_validation_witness :
    (execute false 10 0 0 99 ⟨0, 165, 3, 0⟩ none (some [7, 8])
        ⟨true, [0xdd, 0, 0, 0, 0, 0x77]⟩).ok = true :=
  (execute_response_validation false 10 0 0 99 ⟨0, 165, 3, 0⟩ none [7, 8]
      0xdd 0 0 [] 0 0 0x77 ⟨true, [0xdd, 0, 0, 0, 0, 0x77]⟩
      (by decide) rfl rfl rfl).mpr
    (by refine ⟨rfl, by norm_num, by decide, rfl⟩)

end JbdBms
